import Mathlib

/-!
Verification of the adbfs mount/lifecycle controller (src/cmd/adbfs/main.go)
and of the fs package helpers exercised by src/fs/util_test.go.

The lifecycle controller keeps two process-wide atomic boolean flags,
`mounted` and `unmounted` (fs.AtomicBool), plus the FUSE server pointer.
We embed that global state as `LifeState` and translate the functions
`unmountServer`, `handleDeviceDisconnected`, `startServer`,
`checkValidMountpoint` and the relevant parts of `main` directly from the
source. A Go panic is embedded as `Except.error` carrying the panic message.
-/

namespace Adbfs

/-- Modelled from the spec: `fs.AtomicBool` (its implementation is not under
src/; only its uses in main.go are). Per the spec it is an atomic
compare-and-swap boolean: `casBool b old new` returns (whether the swap
happened, the new flag value), atomically. `Value()` is just the Bool. -/
def casBool (b old new : Bool) : Bool × Bool :=
  if b = old then (true, new) else (false, b)

/-- The process-wide mutable state of main.go that the lifecycle functions
touch: whether `server` is non-nil (main.go:35,72), the `mounted` flag
(main.go:37), the `unmounted` flag (main.go:40), and a ghost counter of how
many times `server.Unmount()` has actually been called (main.go:222). -/
structure LifeState where
  serverCreated : Bool
  mounted : Bool
  unmounted : Bool
  unmountCalls : Nat
deriving DecidableEq, Repr

/-- Translation of `unmountServer` (main.go:212-225): panic if the server was
never created, panic if `mounted` is still false, otherwise CAS the
`unmounted` flag from false to true and call `server.Unmount()` only when the
CAS succeeds. -/
def unmountServer (s : LifeState) : Except String LifeState :=
  if !s.serverCreated then
    Except.error "attempted to unmount server before creating it"
  else if !s.mounted then
    Except.error "attempted to unmount server before mounting it"
  else
    let r := casBool s.unmounted false true
    if r.1 then
      Except.ok { s with unmounted := r.2, unmountCalls := s.unmountCalls + 1 }
    else
      Except.ok { s with unmounted := r.2 }

/-- Translation of `handleDeviceDisconnected` (main.go:227-235): if `mounted`
is still false or `unmounted` is already true, return immediately; otherwise
call `unmountServer`. -/
def handleDeviceDisconnected (s : LifeState) : Except String LifeState :=
  if !s.mounted || s.unmounted then
    Except.ok s
  else
    unmountServer s

/-- Translation of `mounted.CompareAndSwap(false, true)` at main.go:82, run
right after `startServer` succeeds. -/
def setMounted (s : LifeState) : LifeState :=
  { s with mounted := (casBool s.mounted false true).2 }

/-- The state of main.go just after the filesystem has been successfully
mounted (server created by `nodefs.MountRoot`, `mounted` CASed to true at
main.go:82, `unmounted` still false, no `Unmount()` call yet). -/
def mountedInit : LifeState :=
  { serverCreated := true, mounted := true, unmounted := false, unmountCalls := 0 }

/-!
Fine-grained concurrency model for the unmount path. Each invocation of the
unmount path is a thread executing one of two straight-line programs:
`unmountServer` (the deferred call at main.go:83, reached from the signal or
the server-done branch of the select loop) or `handleDeviceDisconnected`
(the watchdog callback, main.go:227). A thread is represented by its program
counter; every shared-memory access of the Go code (each `Value()` read, the
`CompareAndSwap`, the nil check on `server`) is one atomic micro-step, and a
schedule interleaves the micro-steps of the threads arbitrarily.
-/

/-- Program counter of an unmount-path thread. The successor of each label is
fixed by the straight-line Go code:
`checkServer` (main.go:213) steps to `checkMounted` (main.go:216), which
steps to `casUnmount` (main.go:220-224, the CAS together with the
`server.Unmount()` call the winner performs);
`guardMounted` (the `mounted.Value()` read at main.go:228) steps either to
`done` or to `guardUnmounted` (the `unmounted.Value()` read at main.go:228),
which steps either to `done` or into the `unmountServer` body. -/
inductive Pc where
  | done
  | checkServer
  | checkMounted
  | casUnmount
  | guardMounted
  | guardUnmounted
deriving DecidableEq, Repr

/-- One atomic micro-step of a single unmount-path thread, translated from
main.go:212-235. A Go panic is `Except.error` with the panic message. -/
def stepThread (s : LifeState) (p : Pc) : Except String (LifeState × Pc) :=
  match p with
  | .done => Except.ok (s, .done)
  | .checkServer =>
    if !s.serverCreated then
      Except.error "attempted to unmount server before creating it"
    else
      Except.ok (s, .checkMounted)
  | .checkMounted =>
    if !s.mounted then
      Except.error "attempted to unmount server before mounting it"
    else
      Except.ok (s, .casUnmount)
  | .casUnmount =>
    let r := casBool s.unmounted false true
    if r.1 then
      Except.ok ({ s with unmounted := r.2, unmountCalls := s.unmountCalls + 1 }, .done)
    else
      Except.ok ({ s with unmounted := r.2 }, .done)
  | .guardMounted =>
    if !s.mounted then Except.ok (s, .done) else Except.ok (s, .guardUnmounted)
  | .guardUnmounted =>
    if s.unmounted then Except.ok (s, .done) else Except.ok (s, .checkServer)

/-- Run a schedule: each entry names the thread whose next micro-step runs
(indices that point at no thread are skipped). -/
def runSched (s : LifeState) (ts : List Pc) : List Nat → Except String (LifeState × List Pc)
  | [] => Except.ok (s, ts)
  | i :: rest =>
    match ts[i]? with
    | none => runSched s ts rest
    | some p =>
      match stepThread s p with
      | Except.error e => Except.error e
      | Except.ok (s2, p2) => runSched s2 (ts.set i p2) rest

/-- The invariant that carries the exactly-once argument: after a successful
mount, the server exists and `mounted` stays true; `server.Unmount()` has
been called exactly as often as the `unmounted` flag says; and no thread can
have finished while `unmounted` is still false. -/
def LifeInv (s : LifeState) (ts : List Pc) : Prop :=
  s.serverCreated = true ∧ s.mounted = true ∧
  s.unmountCalls = (if s.unmounted then 1 else 0) ∧
  (s.unmounted = false → ∀ t ∈ ts, t ≠ Pc.done)

theorem stepThread_preserves_inv (s : LifeState) (p : Pc) (ts : List Pc) (i : Nat)
    (hinv : LifeInv s ts) (hp : ts[i]? = some p) :
    ∃ s2 p2, stepThread s p = Except.ok (s2, p2) ∧ LifeInv s2 (ts.set i p2) := by
  obtain ⟨hsrv, hmnt, hcnt, hdone⟩ := hinv
  cases p with
  | done =>
    refine ⟨s, .done, rfl, hsrv, hmnt, hcnt, fun hu t ht => ?_⟩
    exact (hdone hu Pc.done (List.get?_mem ((List.get?_eq_getElem? ts i).trans hp)) rfl).elim
  | checkServer =>
    refine ⟨s, .checkMounted, by simp [stepThread, hsrv], hsrv, hmnt, hcnt, fun hu t ht => ?_⟩
    rcases List.mem_or_eq_of_mem_set ht with h | h
    · exact hdone hu t h
    · subst h; simp
  | checkMounted =>
    refine ⟨s, .casUnmount, by simp [stepThread, hmnt], hsrv, hmnt, hcnt, fun hu t ht => ?_⟩
    rcases List.mem_or_eq_of_mem_set ht with h | h
    · exact hdone hu t h
    · subst h; simp
  | casUnmount =>
    cases hu : s.unmounted with
    | false =>
      refine ⟨{ s with unmounted := true, unmountCalls := s.unmountCalls + 1 }, .done,
        by simp [stepThread, casBool, hu], hsrv, hmnt, by simp [hcnt, hu], ?_⟩
      intro h; exact absurd h (by simp)
    | true =>
      refine ⟨{ s with unmounted := true }, .done,
        by simp [stepThread, casBool, hu], hsrv, hmnt, by simp [hcnt, hu], ?_⟩
      intro h; exact absurd h (by simp)
  | guardMounted =>
    refine ⟨s, .guardUnmounted, by simp [stepThread, hmnt], hsrv, hmnt, hcnt, fun hu t ht => ?_⟩
    rcases List.mem_or_eq_of_mem_set ht with h | h
    · exact hdone hu t h
    · subst h; simp
  | guardUnmounted =>
    cases hu : s.unmounted with
    | false =>
      refine ⟨s, .checkServer, by simp [stepThread, hu], hsrv, hmnt, hcnt, fun hu2 t ht => ?_⟩
      rcases List.mem_or_eq_of_mem_set ht with h | h
      · exact hdone hu2 t h
      · subst h; simp
    | true =>
      refine ⟨s, .done, by simp [stepThread, hu], hsrv, hmnt, hcnt, fun hu2 t ht => ?_⟩
      rw [hu] at hu2; exact absurd hu2 (by simp)

theorem runSched_preserves_inv (sched : List Nat) (s : LifeState) (ts : List Pc)
    (hinv : LifeInv s ts) :
    ∃ s2 ts2, runSched s ts sched = Except.ok (s2, ts2) ∧ LifeInv s2 ts2 ∧
      ts2.length = ts.length := by
  induction sched generalizing s ts with
  | nil => exact ⟨s, ts, rfl, hinv, rfl⟩
  | cons i rest ih =>
    cases hp : ts[i]? with
    | none =>
      obtain ⟨s2, ts2, hrun, hinv2, hlen⟩ := ih s ts hinv
      exact ⟨s2, ts2, by simp [runSched, hp, hrun], hinv2, hlen⟩
    | some p =>
      obtain ⟨s1, p1, hstep, hinv1⟩ := stepThread_preserves_inv s p ts i hinv hp
      obtain ⟨s2, ts2, hrun, hinv2, hlen⟩ := ih s1 (ts.set i p1) hinv1
      exact ⟨s2, ts2, by simp [runSched, hp, hstep, hrun], hinv2, by simpa using hlen⟩

/-- `StartTimeout = 5 * time.Second` (main.go:30), in seconds. -/
def StartTimeout : Nat := 5

/-- Which of the three channels of the select at main.go:201-209 fires first:
the server-ready signal, the server-done channel (the server terminated on
its own), or the `time.After(startTimeout)` timer. -/
inductive StartOutcome where
  | ready
  | serverExit
  | timeout
deriving DecidableEq, Repr

/-- Translation of the select in `startServer` (main.go:183-210), indexed by
which channel fires first: on `serverReady` it returns the done channel and
no error; on `serverDone` it returns the error "unknown error"; on the timer
it returns the timeout error built by
`fmt.Sprint("server failed to start after", startTimeout)` (no separator, as
`fmt.Sprint` inserts none next to a string operand). -/
def startServer (ev : StartOutcome) : Except String Unit :=
  match ev with
  | StartOutcome.ready => Except.ok ()
  | StartOutcome.serverExit => Except.error "unknown error"
  | StartOutcome.timeout =>
    Except.error ("server failed to start after" ++ toString StartTimeout ++ "s")

/-- How the remainder of `main` finishes. `cli.Log.Fatal` exits the process
immediately (deferred functions do not run). -/
inductive MainResult where
  | fatalExit (msg : String) (s : LifeState)
  | normalExit (s : LifeState)
  | panicked (msg : String)
deriving DecidableEq, Repr

/-- Translation of main.go:77-103 starting just after `nodefs.MountRoot`
succeeded: call `startServer`; on error, `cli.Log.Fatal(err)` exits the
process with the lifecycle state untouched — the `defer unmountServer()` at
main.go:83 is registered only after `startServer` returns without error, so
no unmount is ever attempted. On success, CAS `mounted` to true, register
the deferred `unmountServer`, and eventually leave the select loop (via a
signal or the done channel), running the deferred `unmountServer`. -/
def mainFromStartServer (ev : StartOutcome) (s : LifeState) : MainResult :=
  match startServer ev with
  | Except.error e => MainResult.fatalExit e s
  | Except.ok _ =>
    let s1 := setMounted s
    match unmountServer s1 with
    | Except.error m => MainResult.panicked m
    | Except.ok s2 => MainResult.normalExit s2

/-- The lifecycle state just after `nodefs.MountRoot` succeeded
(main.go:72-75): the server exists but nothing is mounted yet. -/
def afterMountRoot : LifeState :=
  { serverCreated := true, mounted := false, unmounted := false, unmountCalls := 0 }

/-- Configuration fields of `cli.AdbfsConfig` that `main` validates
(main.go:50-63). -/
structure AdbfsConfig where
  deviceSerial : String
  mountpoint : String
deriving DecidableEq, Repr

/-- Result of `os.Stat`: the one field `checkValidMountpoint` reads. -/
structure FileInfo where
  isDir : Bool
deriving DecidableEq, Repr

/-- The OS responses `main` consults before mounting: `filepath.Abs` on the
configured mountpoint and `os.Stat` on the resulting absolute path. -/
structure OsEnv where
  absResult : Except String String
  statResult : Except String FileInfo
deriving Repr

/-- Translation of `checkValidMountpoint` (main.go:237-248): propagate the
`os.Stat` error, reject non-directories with
`fmt.Sprint("path is not a directory:", path)`, else succeed. -/
def checkValidMountpoint (stat : Except String FileInfo) (path : String) :
    Except String Unit :=
  match stat with
  | Except.error e => Except.error e
  | Except.ok info =>
    if !info.isDir then Except.error ("path is not a directory:" ++ path)
    else Except.ok ()

/-- Translation of the configuration checks of `main` (main.go:50-63), in
source order: empty device serial is fatal, empty mountpoint is fatal, a
`filepath.Abs` error is fatal, an invalid mountpoint (stat error or not a
directory) is fatal. An `Except.error` is a `cli.Log.Fatal*` exit; `Except.ok`
carries the absolute mountpoint with which `main` proceeds to mount. -/
def mainPrelude (cfg : AdbfsConfig) (env : OsEnv) : Except String String :=
  if cfg.deviceSerial = "" then
    Except.error "Device serial must be specified. Run with -h."
  else if cfg.mountpoint = "" then
    Except.error "Mountpoint must be specified. Run with -h."
  else
    match env.absResult with
    | Except.error e => Except.error e
    | Except.ok absoluteMountpoint =>
      match checkValidMountpoint env.statResult absoluteMountpoint with
      | Except.error e => Except.error e
      | Except.ok _ => Except.ok absoluteMountpoint

/-- Whether `main` reaches any mount side effect (`initializeFileSystem`,
`nodefs.MountRoot`, `startServer`): in main.go these all come strictly after
the checks of `mainPrelude`, so they run iff the prelude did not exit. -/
def mountAttempted (cfg : AdbfsConfig) (env : OsEnv) : Bool :=
  match mainPrelude cfg env with
  | Except.ok _ => true
  | Except.error _ => false

/-!
The fs package helpers exercised by src/fs/util_test.go. Their
implementations (fs/util.go) are not under src/ — only the tests are — so
the definitions below are modelled from the spec (section 4.7 and the
testable properties of section 8) and pinned by the expectations the tests
assert.
-/

/-- A logged argument value: Go `interface` values as they occur in the
logging call sites — strings, byte slices, integers. -/
inductive LogVal where
  | str (s : String)
  | bytes (b : List Nat)
  | int (n : Int)
deriving DecidableEq, Repr

/-- Modelled from the spec: `summarizeByteSlicesForLog` (fs/util.go, not
under src/). Per the spec, byte-sequence arguments are summarized as
length-tagged placeholders rather than raw bytes; the test pins the
placeholder for a 3-byte slice as the string "[]byte(3)" and requires every
other element to stay unchanged in its position. The Go function mutates the
slice in place; the model returns the updated list. -/
def summarizeByteSlicesForLog (vals : List LogVal) : List LogVal :=
  vals.map fun v =>
    match v with
    | LogVal.bytes b => LogVal.str ("[]byte(" ++ toString b.length ++ ")")
    | v => v

/-- `goadb.DirEntry`: name, size and mode of one remote file. -/
structure DirEntry where
  name : String
  size : Nat
  mode : Nat
deriving DecidableEq, Repr

/-- `fuse.DirEntry`: the name and mode bits handed to the kernel-facing
bridge. -/
structure FuseDirEntry where
  Name : String
  Mode : Nat
deriving DecidableEq, Repr

/-- Modelled from the spec: `asFuseDirEntries` (fs/util.go, not under src/).
Per the spec, a remote listing translated through the adapter yields the
entries in the same order with each name preserved and non-zero mode bits
preserved; the model carries the mode bits over unchanged. -/
def asFuseDirEntries (entries : List DirEntry) : List FuseDirEntry :=
  entries.map fun e => { Name := e.name, Mode := e.mode }

/-- `fuse.Status`: a POSIX-style status code; 0 is OK. -/
structure Status where
  code : Nat
deriving DecidableEq, Repr

/-- `code.Ok()` of `fuse.Status`. -/
def Status.isOk (s : Status) : Bool := s.code = 0

/-- One delegated call on an open file handle, with its arguments. -/
inductive FileOp where
  | fsync (flags : Int)
  | flush
  | read (off : Int) (len : Nat)
  | write (dat : List Nat) (off : Int)
  | truncate (size : Nat)
  | release
deriving DecidableEq, Repr

/-- The result a file handle returns for one call. -/
inductive FileResult where
  | status (s : Status)
  | readResult (dat : List Nat) (s : Status)
  | writeResult (written : Nat) (s : Status)
deriving DecidableEq, Repr

/-- An open file handle as a capability: what it returns for each call. -/
def File := FileOp → FileResult

/-- One structured log record, with the fields the test asserts on
(operation, args, results, time). -/
structure LogRecord where
  operation : String
  args : String
  results : String
  time : String
deriving DecidableEq, Repr

/-- The operation name recorded for a delegated call. -/
def opName : FileOp → String
  | FileOp.fsync _ => "Fsync"
  | FileOp.flush => "Flush"
  | FileOp.read _ _ => "Read"
  | FileOp.write _ _ => "Write"
  | FileOp.truncate _ => "Truncate"
  | FileOp.release => "Release"

/-- The logged argument values of a delegated call. -/
def opArgs : FileOp → List LogVal
  | FileOp.fsync flags => [LogVal.int flags]
  | FileOp.flush => []
  | FileOp.read off len => [LogVal.int off, LogVal.int (Int.ofNat len)]
  | FileOp.write dat off => [LogVal.bytes dat, LogVal.int off]
  | FileOp.truncate size => [LogVal.int (Int.ofNat size)]
  | FileOp.release => []

/-- Rendering of one logged value inside the argument summary. -/
def formatLogVal : LogVal → String
  | LogVal.str s => s
  | LogVal.int n => toString n
  | LogVal.bytes b => "[]byte(" ++ toString b.length ++ ")"

/-- The argument-summary field: the values, byte slices already summarized,
rendered the way Go prints a slice — space-separated inside brackets (the
test pins `Fsync(42)` to the summary "[42]"). -/
def formatArgs (args : List LogVal) : String :=
  "[" ++ String.intercalate " " ((summarizeByteSlicesForLog args).map formatLogVal) ++ "]"

/-- Rendering of a status in the results field. -/
def formatStatus (s : Status) : String :=
  if s.code = 0 then "OK" else toString s.code

/-- The results field recorded for a delegated call. -/
def formatResults : FileResult → String
  | FileResult.status s => "[" ++ formatStatus s ++ "]"
  | FileResult.readResult dat s =>
    "[" ++ "[]byte(" ++ toString dat.length ++ ") " ++ formatStatus s ++ "]"
  | FileResult.writeResult written s =>
    "[" ++ toString written ++ " " ++ formatStatus s ++ "]"

/-- The elapsed-time field: a Go duration string, digits followed by a unit
suffix. -/
def formatElapsed (elapsedNanos : Nat) : String :=
  toString elapsedNanos ++ "ns"

/-- Modelled from the spec: `newLoggingFile` (fs/util.go, not under src/).
Per the spec it wraps an open file handle and, for every delegated call,
records one structured entry — operation name, argument summary, the
result, and elapsed wall-clock time — and never alters the result of the
wrapped call. The elapsed time, measured from the wall clock in Go, is an
explicit parameter here. The wrapped call and the record production are one
step: exactly one record per delegated call. -/
def newLoggingFile (file : File) (op : FileOp) (elapsedNanos : Nat) :
    LogRecord × FileResult :=
  let result := file op
  ({ operation := opName op,
     args := formatArgs (opArgs op),
     results := formatResults result,
     time := formatElapsed elapsedNanos },
   result)

/-- Modelled from the test: `nodefs.NewDataFile([]byte{})`, whose `Fsync`
returns a non-ok status (the test asserts `code.Ok()` is false; go-fuse
returns ENOSYS = 38 for unimplemented calls). -/
def dataFile : File := fun op =>
  match op with
  | FileOp.read _ _ => FileResult.readResult [] { code := 0 }
  | _ => FileResult.status { code := 38 }

/-- Flag monotonicity between two lifecycle states: a flag that is true never
reverts to false. -/
def FlagLe (s s2 : LifeState) : Prop :=
  (s.mounted = true → s2.mounted = true) ∧ (s.unmounted = true → s2.unmounted = true)

theorem setMounted_flagLe (s : LifeState) :
    FlagLe s (setMounted s) ∧ (setMounted s).unmounted = s.unmounted := by
  cases hm : s.mounted <;> simp [setMounted, casBool, FlagLe, hm]

theorem unmountServer_flagLe (s s2 : LifeState) (h : unmountServer s = Except.ok s2) :
    FlagLe s s2 ∧ s2.mounted = s.mounted := by
  cases hsv : s.serverCreated <;> cases hm : s.mounted <;> cases hu : s.unmounted <;>
    simp [unmountServer, casBool, hsv, hm, hu] at h <;>
    simp [FlagLe, ← h, hm, hu]

theorem handleDeviceDisconnected_flagLe (s s2 : LifeState)
    (h : handleDeviceDisconnected s = Except.ok s2) :
    FlagLe s s2 ∧ s2.mounted = s.mounted := by
  by_cases hg : (!s.mounted || s.unmounted) = true
  · rw [handleDeviceDisconnected, if_pos hg] at h
    cases h
    exact ⟨⟨fun h => h, fun h => h⟩, rfl⟩
  · rw [handleDeviceDisconnected, if_neg hg] at h
    exact unmountServer_flagLe s s2 h

theorem stepThread_flagLe (s : LifeState) (p : Pc) (s2 : LifeState) (p2 : Pc)
    (h : stepThread s p = Except.ok (s2, p2)) : FlagLe s s2 := by
  cases p <;> cases hsv : s.serverCreated <;> cases hm : s.mounted <;> cases hu : s.unmounted <;>
    simp [stepThread, casBool, hsv, hm, hu] at h <;>
    obtain ⟨h1, h2⟩ := h <;> simp [FlagLe, ← h1, hm, hu]

end Adbfs

namespace Adbfs

/-- C1: once the filesystem is mounted (`mountedInit`), for every collection
of threads each running the unmount path (the deferred `unmountServer` call,
reached from either the OS-signal branch or the server-done branch of the
select loop, or the watchdog callback `handleDeviceDisconnected`) and every
interleaving of their atomic micro-steps, no thread panics, `server.Unmount()`
is called at most once at every point, it has been called exactly once
precisely when the `unmounted` flag is set (so only the CAS winner calls it
and every later invocation returns without calling it), and whenever all
threads (at least one) have finished, it has been called exactly once. -/
theorem unmount_called_exactly_once (ts : List Pc) (sched : List Nat)
    (hts : ∀ t ∈ ts, t = Pc.checkServer ∨ t = Pc.guardMounted) :
    ∃ s2 ts2, runSched mountedInit ts sched = Except.ok (s2, ts2) ∧
      s2.unmountCalls ≤ 1 ∧
      (s2.unmounted = true ↔ s2.unmountCalls = 1) ∧
      (ts ≠ [] → (∀ t ∈ ts2, t = Pc.done) → s2.unmountCalls = 1) := by
  have hinv : LifeInv mountedInit ts := by
    refine ⟨rfl, rfl, rfl, fun hu t ht => ?_⟩
    rcases hts t ht with h | h <;> simp [h]
  obtain ⟨s2, ts2, hrun, ⟨hsrv, hmnt, hcnt, hdone⟩, hlen⟩ :=
    runSched_preserves_inv sched mountedInit ts hinv
  refine ⟨s2, ts2, hrun, ?_, ?_, ?_⟩
  · rw [hcnt]; split <;> simp
  · rw [hcnt]; cases h : s2.unmounted <;> simp
  · intro hne hall
    cases hu : s2.unmounted with
    | true => rw [hcnt, hu]; rfl
    | false =>
      have hne2 : ts2 ≠ [] := by
        intro h
        rw [h] at hlen
        exact hne (List.eq_nil_of_length_eq_zero hlen.symm)
      obtain ⟨t, ht⟩ := List.exists_mem_of_ne_nil ts2 hne2
      exact absurd (hall t ht) (hdone hu t ht)

theorem unmount_called_exactly_once_witness :
    ∃ s2 ts2,
      runSched mountedInit [Pc.checkServer, Pc.guardMounted] [0, 1, 0, 1, 0, 1, 1] =
        Except.ok (s2, ts2) ∧
      s2.unmountCalls ≤ 1 ∧
      (s2.unmounted = true ↔ s2.unmountCalls = 1) ∧
      ([Pc.checkServer, Pc.guardMounted] ≠ [] → (∀ t ∈ ts2, t = Pc.done) →
        s2.unmountCalls = 1) :=
  unmount_called_exactly_once [Pc.checkServer, Pc.guardMounted] [0, 1, 0, 1, 0, 1, 1]
    (by decide)

/-- C2: invoking `handleDeviceDisconnected` while the `mounted` flag is still
false (or after `unmounted` is already true) is a safe no-op: it returns the
state unchanged — no panic, no error, and no `server.Unmount()` call. -/
theorem handleDeviceDisconnected_early_noop (s : LifeState)
    (h : s.mounted = false ∨ s.unmounted = true) :
    handleDeviceDisconnected s = Except.ok s := by
  rcases h with h | h <;> simp [handleDeviceDisconnected, h]

theorem handleDeviceDisconnected_early_noop_witness :
    handleDeviceDisconnected
        { serverCreated := true, mounted := false, unmounted := false, unmountCalls := 0 } =
      Except.ok
        { serverCreated := true, mounted := false, unmounted := false, unmountCalls := 0 } :=
  handleDeviceDisconnected_early_noop
    { serverCreated := true, mounted := false, unmounted := false, unmountCalls := 0 }
    (Or.inl rfl)

/-- C4: the `mounted` and `unmounted` flags are monotonic. Every operation of
the program that touches them — the `mounted` CAS at main.go:82, the body of
`unmountServer`, the body of `handleDeviceDisconnected`, and every atomic
micro-step of the interleaved unmount threads — changes each flag only from
false to true and never resets one to false; moreover `setMounted` leaves
`unmounted` untouched and the unmount path leaves `mounted` untouched, so
each flag is written by one CAS site and transitions at most once. -/
theorem lifecycle_flags_monotonic (s : LifeState) :
    (FlagLe s (setMounted s) ∧ (setMounted s).unmounted = s.unmounted) ∧
    (∀ s2, unmountServer s = Except.ok s2 → FlagLe s s2 ∧ s2.mounted = s.mounted) ∧
    (∀ s2, handleDeviceDisconnected s = Except.ok s2 → FlagLe s s2 ∧ s2.mounted = s.mounted) ∧
    (∀ p s2 p2, stepThread s p = Except.ok (s2, p2) → FlagLe s s2) :=
  ⟨setMounted_flagLe s,
   fun s2 h => unmountServer_flagLe s s2 h,
   fun s2 h => handleDeviceDisconnected_flagLe s s2 h,
   fun p s2 p2 h => stepThread_flagLe s p s2 p2 h⟩

theorem lifecycle_flags_monotonic_witness :
    FlagLe mountedInit (setMounted mountedInit) ∧
    FlagLe mountedInit
      { serverCreated := true, mounted := true, unmounted := true, unmountCalls := 1 } :=
  ⟨(lifecycle_flags_monotonic mountedInit).1.1,
   ((lifecycle_flags_monotonic mountedInit).2.1
      { serverCreated := true, mounted := true, unmounted := true, unmountCalls := 1 }
      rfl).1⟩

/-- C3: when neither the server-ready signal nor server termination arrives
within the startup timeout (StartTimeout = 5 seconds), `startServer` returns
the timeout error, `main` exits fatally, and no unmount is ever attempted:
the lifecycle state is left exactly as it was after `MountRoot`, with zero
`server.Unmount()` calls and the `mounted` flag still false (the deferred
`unmountServer` is registered only after `startServer` succeeds). -/
theorem startServer_timeout_no_unmount :
    StartTimeout = 5 ∧
    startServer StartOutcome.timeout =
      Except.error ("server failed to start after" ++ toString StartTimeout ++ "s") ∧
    mainFromStartServer StartOutcome.timeout afterMountRoot =
      MainResult.fatalExit ("server failed to start after" ++ toString StartTimeout ++ "s")
        afterMountRoot ∧
    afterMountRoot.unmountCalls = 0 ∧ afterMountRoot.mounted = false :=
  ⟨rfl, rfl, rfl, rfl, rfl⟩

/-- C5: if the configured device serial is empty, or the mountpoint is empty,
cannot be resolved to an absolute path, does not exist (stat fails), or is
not a directory, then `main` exits fatally in its prelude and no mount
side effect is ever performed. -/
theorem fatal_config_exits_before_mount (cfg : AdbfsConfig) (env : OsEnv)
    (h : cfg.deviceSerial = "" ∨ cfg.mountpoint = "" ∨
      (∃ e, env.absResult = Except.error e) ∨
      (∃ e, env.statResult = Except.error e) ∨
      (∃ info, env.statResult = Except.ok info ∧ info.isDir = false)) :
    (∃ msg, mainPrelude cfg env = Except.error msg) ∧
    mountAttempted cfg env = false := by
  have hmsg : ∃ msg, mainPrelude cfg env = Except.error msg := by
    unfold mainPrelude
    by_cases hs : cfg.deviceSerial = ""
    · exact ⟨"Device serial must be specified. Run with -h.", by simp [hs]⟩
    · by_cases hm : cfg.mountpoint = ""
      · exact ⟨"Mountpoint must be specified. Run with -h.", by simp [hs, hm]⟩
      · rcases h with h | h | ⟨e, he⟩ | ⟨e, he⟩ | ⟨info, hi, hd⟩
        · exact absurd h hs
        · exact absurd h hm
        · exact ⟨e, by simp [hs, hm, he]⟩
        · cases habs : env.absResult with
          | error e2 => exact ⟨e2, by simp [hs, hm]⟩
          | ok p => exact ⟨e, by simp [hs, hm, checkValidMountpoint, he]⟩
        · cases habs : env.absResult with
          | error e2 => exact ⟨e2, by simp [hs, hm]⟩
          | ok p =>
            exact ⟨"path is not a directory:" ++ p,
              by simp [hs, hm, checkValidMountpoint, hi, hd]⟩
  obtain ⟨msg, hmsg2⟩ := hmsg
  exact ⟨⟨msg, hmsg2⟩, by simp [mountAttempted, hmsg2]⟩

theorem fatal_config_exits_before_mount_witness :
    (∃ msg,
      mainPrelude { deviceSerial := "", mountpoint := "/mnt/adb" }
          { absResult := Except.ok "/mnt/adb",
            statResult := Except.ok { isDir := true } } =
        Except.error msg) ∧
    mountAttempted { deviceSerial := "", mountpoint := "/mnt/adb" }
        { absResult := Except.ok "/mnt/adb",
          statResult := Except.ok { isDir := true } } = false :=
  fatal_config_exits_before_mount
    { deviceSerial := "", mountpoint := "/mnt/adb" }
    { absResult := Except.ok "/mnt/adb", statResult := Except.ok { isDir := true } }
    (Or.inl rfl)

/-- C10: `unmountServer` panics exactly when the server was never created or
the `mounted` flag is still false; under the precondition that mounting
succeeded (server created and `mounted` true) its panic branches are
unreachable and it returns normally; and the guard in
`handleDeviceDisconnected` returns the state unchanged — before ever calling
`unmountServer` — whenever `mounted` is false or `unmounted` is already
true, which is what protects early disconnect events from those panics. -/
theorem unmountServer_panic_conditions (s : LifeState) :
    (s.serverCreated = false ∨ s.mounted = false →
      ∃ msg, unmountServer s = Except.error msg) ∧
    (s.serverCreated = true → s.mounted = true →
      ∃ s2, unmountServer s = Except.ok s2) ∧
    (s.mounted = false ∨ s.unmounted = true →
      handleDeviceDisconnected s = Except.ok s) := by
  refine ⟨fun h => ?_, fun hsv hm => ?_, fun h => ?_⟩
  · rcases h with h | h
    · exact ⟨"attempted to unmount server before creating it", by simp [unmountServer, h]⟩
    · cases hsv : s.serverCreated
      · exact ⟨"attempted to unmount server before creating it", by simp [unmountServer, hsv]⟩
      · exact ⟨"attempted to unmount server before mounting it", by simp [unmountServer, hsv, h]⟩
  · cases hu : s.unmounted
    · exact ⟨{ s with unmounted := true, unmountCalls := s.unmountCalls + 1 },
        by simp [unmountServer, casBool, hsv, hm, hu]⟩
    · exact ⟨{ s with unmounted := true },
        by simp [unmountServer, casBool, hsv, hm, hu]⟩
  · rcases h with h | h <;> simp [handleDeviceDisconnected, h]

theorem unmountServer_panic_conditions_witness :
    (∃ msg,
      unmountServer
          { serverCreated := false, mounted := false, unmounted := false, unmountCalls := 0 } =
        Except.error msg) ∧
    (∃ s2, unmountServer mountedInit = Except.ok s2) ∧
    handleDeviceDisconnected
        { serverCreated := false, mounted := false, unmounted := false, unmountCalls := 0 } =
      Except.ok
        { serverCreated := false, mounted := false, unmounted := false, unmountCalls := 0 } :=
  ⟨(unmountServer_panic_conditions
      { serverCreated := false, mounted := false, unmounted := false, unmountCalls := 0 }).1
      (Or.inl rfl),
   (unmountServer_panic_conditions mountedInit).2.1 rfl rfl,
   (unmountServer_panic_conditions
      { serverCreated := false, mounted := false, unmounted := false, unmountCalls := 0 }).2.2
      (Or.inl rfl)⟩

/-- C6: the operation-logging wrapper returns exactly the result the wrapped
file handle returns for every delegated operation, never altering it — in
particular a non-ok Fsync status passes through unchanged. -/
theorem newLoggingFile_preserves_result (file : File) (op : FileOp) (elapsedNanos : Nat) :
    (newLoggingFile file op elapsedNanos).2 = file op ∧
    (∀ flags, (newLoggingFile file (FileOp.fsync flags) elapsedNanos).2 =
      file (FileOp.fsync flags)) :=
  ⟨rfl, fun _ => rfl⟩

/-- C7: translating the remote listing of the two test entries through the
adapter yields exactly two entries, in the same order, with each name
preserved and non-zero mode bits. -/
theorem asFuseDirEntries_roundtrip :
    (asFuseDirEntries
        [{ name := "/foo.txt", size := 24, mode := 292 },
         { name := "/bar.txt", size := 42, mode := 292 }]).length = 2 ∧
    (asFuseDirEntries
        [{ name := "/foo.txt", size := 24, mode := 292 },
         { name := "/bar.txt", size := 42, mode := 292 }])[0]? =
      some { Name := "/foo.txt", Mode := 292 } ∧
    (asFuseDirEntries
        [{ name := "/foo.txt", size := 24, mode := 292 },
         { name := "/bar.txt", size := 42, mode := 292 }])[1]? =
      some { Name := "/bar.txt", Mode := 292 } ∧
    (292 : Nat) ≠ 0 :=
  ⟨rfl, rfl, rfl, by decide⟩

/-- C8: `summarizeByteSlicesForLog` keeps the length of the argument list,
replaces each byte-slice element in place by the length-tagged placeholder
string for its length, and leaves every non-byte-slice element unchanged in
its position. -/
theorem summarizeByteSlicesForLog_spec (vals : List LogVal) (i : Nat) :
    (summarizeByteSlicesForLog vals).length = vals.length ∧
    (∀ b, vals[i]? = some (LogVal.bytes b) →
      (summarizeByteSlicesForLog vals)[i]? =
        some (LogVal.str ("[]byte(" ++ toString b.length ++ ")"))) ∧
    (∀ v, vals[i]? = some v → (∀ b, v ≠ LogVal.bytes b) →
      (summarizeByteSlicesForLog vals)[i]? = some v) := by
  refine ⟨List.length_map vals _, fun b hb => ?_, fun v hv hnb => ?_⟩
  · rw [summarizeByteSlicesForLog, List.getElem?_map, hb]
    rfl
  · rw [summarizeByteSlicesForLog, List.getElem?_map, hv]
    cases v with
    | str s => rfl
    | int n => rfl
    | bytes b => exact absurd rfl (hnb b)

theorem summarizeByteSlicesForLog_spec_witness :
    (summarizeByteSlicesForLog
        [LogVal.str "foo", LogVal.bytes [98, 97, 114], LogVal.int 42]).length = 3 ∧
    (summarizeByteSlicesForLog
        [LogVal.str "foo", LogVal.bytes [98, 97, 114], LogVal.int 42])[1]? =
      some (LogVal.str "[]byte(3)") ∧
    (summarizeByteSlicesForLog
        [LogVal.str "foo", LogVal.bytes [98, 97, 114], LogVal.int 42])[0]? =
      some (LogVal.str "foo") :=
  ⟨(summarizeByteSlicesForLog_spec
      [LogVal.str "foo", LogVal.bytes [98, 97, 114], LogVal.int 42] 1).1,
   (summarizeByteSlicesForLog_spec
      [LogVal.str "foo", LogVal.bytes [98, 97, 114], LogVal.int 42] 1).2.1
      [98, 97, 114] rfl,
   (summarizeByteSlicesForLog_spec
      [LogVal.str "foo", LogVal.bytes [98, 97, 114], LogVal.int 42] 0).2.2
      (LogVal.str "foo") rfl (fun b => by simp)⟩

/-- C9: calling Fsync(42) through the operation-logging wrapper produces
exactly one structured record (the wrapper emits one record per delegated
call by construction) whose operation field is "Fsync", whose argument
summary is "[42]", whose results field is non-empty, and whose elapsed-time
field is non-empty, for every elapsed wall-clock duration. -/
theorem newLoggingFile_fsync_record (elapsedNanos : Nat) :
    (newLoggingFile dataFile (FileOp.fsync 42) elapsedNanos).1.operation = "Fsync" ∧
    (newLoggingFile dataFile (FileOp.fsync 42) elapsedNanos).1.args = "[42]" ∧
    (newLoggingFile dataFile (FileOp.fsync 42) elapsedNanos).1.results ≠ "" ∧
    (newLoggingFile dataFile (FileOp.fsync 42) elapsedNanos).1.time ≠ "" ∧
    ((newLoggingFile dataFile (FileOp.fsync 42) elapsedNanos).2 =
      FileResult.status { code := 38 }) := by
  refine ⟨rfl, rfl, ?_, ?_, rfl⟩
  · show ¬("[" ++ formatStatus { code := 38 } ++ "]") = ""
    decide
  · intro h
    have h3 : (toString elapsedNanos ++ "ns") = "" := h
    have h2 := congrArg String.length h3
    rw [String.length_append] at h2
    have hns : ("ns" : String).length = 2 := rfl
    have hz : ("" : String).length = 0 := rfl
    rw [hns, hz] at h2
    omega

end Adbfs
